import Mathlib

/-!
Verification of the opendal storage-access layer against its specification.

The development shallowly embeds the Rust sources:

- `src/services/sled/dir_pager.rs` — the sled `DirPager` and its paging loop;
- `src/services/sled/backend.rs` — the sled key-value `Adapter`;
- `src/layers/metrics.rs` — the metrics layer's counters and the
  byte-counting `MetricReader` with its drop-time flush;
- `src/operator.rs` — `BatchOperator::remove_all`;
- `src/services/webhdfs/backend.rs` — byte-range resolution in
  `webhdfs_open_req` and the not-found handling of `read`.

External collaborators (the sled store, the HTTP client) are modelled at
their interface boundary; machine integers are modelled as `Nat` with an
explicit modulus where overflow matters.
-/

set_option autoImplicit false

namespace Opendal

/-- Error kinds surfaced by the layer (`ErrorKind` in the source); the
canonical kinds named by the spec are listed, everything backend-internal
collapses to `Unexpected`. -/
inductive ErrorKind
  | ObjectNotFound
  | BackendConfigInvalid
  | Unsupported
  | Unexpected
deriving DecidableEq, Repr

instance {ε α : Type} [DecidableEq ε] [DecidableEq α] : DecidableEq (Except ε α) :=
  fun a b =>
    match a, b with
    | .ok x, .ok y =>
      if h : x = y then .isTrue (by rw [h]) else .isFalse (by simp [h])
    | .ok _, .error _ => .isFalse (by simp)
    | .error _, .ok _ => .isFalse (by simp)
    | .error e, .error f =>
      if h : e = f then .isTrue (by rw [h]) else .isFalse (by simp [h])

/-- Object mode discriminant (`ObjectMode` in the source): directory vs leaf. -/
inductive ObjectMode
  | FILE
  | DIR
  | Unknown
deriving DecidableEq, Repr

/-- The slice of `ObjectMetadata` the claims concern: mode and content length. -/
structure ObjectMetadata where
  mode : ObjectMode
  content_length : Nat
deriving DecidableEq, Repr

/-- An object entry produced by listing: path plus metadata
(`ObjectEntry` in the source). -/
structure ObjectEntry where
  path : String
  meta : ObjectMetadata
deriving DecidableEq, Repr

/-! ## sled store model

`sled::Tree` is an external collaborator: a synchronous ordered key-value
map.  We model a tree as its list of key/value pairs in iteration order
(keys are unique in a sled tree, values are byte vectors), and a `sled::Db`
as a map from tree name to tree, where `open_tree` creates an empty tree
on first access.  sled's own I/O faults are outside the model: the adapter
maps them to `ErrorKind.Unexpected` and no claim concerns them. -/

abbrev SledTree : Type := List (String × List Nat)

abbrev SledDb : Type := List (String × SledTree)

def SledDb.open_tree (db : SledDb) (name : String) : SledTree :=
  match db.find? (fun t => t.fst == name) with
  | some t => t.snd
  | none => []

def SledTree.get (t : SledTree) (key : String) : Option (List Nat) :=
  (t.find? (fun kv => kv.fst == key)).map (fun kv => kv.snd)

def SledTree.insert (t : SledTree) (key : String) (value : List Nat) : SledTree :=
  match t with
  | [] => [(key, value)]
  | kv :: rest =>
    if kv.fst == key then (key, value) :: rest
    else kv :: SledTree.insert rest key value

def SledTree.remove (t : SledTree) (key : String) : SledTree :=
  match t with
  | [] => []
  | kv :: rest => if kv.fst == key then rest else kv :: SledTree.remove rest key

/-! ## sled DirPager (src/services/sled/dir_pager.rs) -/

/-- The usize modulus on the 64-bit targets the crate builds for. -/
def USIZE_MOD : Nat := 2 ^ 64

/-- Pager state over a sled tree: `current_page`, `page_size` and the tree
handle, exactly the fields of the Rust `DirPager` (both counters are
`usize`). -/
structure DirPager where
  current_page : Nat
  page_size : Nat
  db_tree : SledTree
deriving DecidableEq, Repr

/-- `BlockingObjectPage for DirPager::next_page`: iterate the tree, skip
`current_page * page_size` items, turn every remaining pair into a FILE
entry whose content length is the stored value's byte length, bump
`current_page`, and return `Ok(Some(objects))` if non-empty else `Ok(None)`
(the source's `(!objects.is_empty()).then_some(objects)`).  The skip
product and the increment are unguarded `usize` arithmetic, embedded with
release-profile wrapping modulo `2^64` (the debug profile would instead
panic at the overflow, which equally departs from the ideal unbounded
value).  The Rust signature returns `Result`; the body only ever builds
`Ok`, and sled iteration errors are skipped by the source's `filter_map`,
so iteration is modelled as all-`Ok`. -/
def DirPager.blocking_next_page (p : DirPager) :
    Except ErrorKind (Option (List ObjectEntry)) × DirPager :=
  let objects : List ObjectEntry :=
    (p.db_tree.drop ((p.current_page * p.page_size) % USIZE_MOD)).map
      (fun kv => ObjectEntry.mk kv.fst (ObjectMetadata.mk ObjectMode.FILE kv.snd.length))
  (if objects.isEmpty then Except.ok none else Except.ok (some objects),
   { p with current_page := (p.current_page + 1) % USIZE_MOD })

/-- `ObjectPage for DirPager::next_page` — the async form, defined in the
source as `<Self as BlockingObjectPage>::next_page(self)`. -/
def DirPager.next_page (p : DirPager) :
    Except ErrorKind (Option (List ObjectEntry)) × DirPager :=
  p.blocking_next_page

/-- State of the pager after `k` successive `next_page` calls. -/
def DirPager.run (p : DirPager) : Nat → DirPager
  | 0 => p
  | k + 1 => (p.blocking_next_page).snd.run k

/-- Concatenation of all pages produced until the first `None` (or until
`fuel` calls have been made); the pager never terminates on its own when
`page_size = 0`, hence the explicit fuel. -/
def DirPager.collectPages : DirPager → Nat → List ObjectEntry
  | _, 0 => []
  | p, fuel + 1 =>
    match p.blocking_next_page with
    | (Except.ok (some page), p') => page ++ p'.collectPages fuel
    | _ => []

/-! ## Path split utilities (crate::raw) -/

/-- Modelled from the spec: `get_basename` (a `crate::raw` path utility whose
source is not under src/).  Per §4.4/§8, the leaf name is the final path
segment: `/dir1/dir2/file.txt` has basename `file.txt`, and so does
`/file.txt`. -/
def get_basename (path : String) : String :=
  String.mk (((path.data.reverse).takeWhile (fun c => c ≠ '/')).reverse)

/-- Modelled from the spec: `get_parent` (a `crate::raw` path utility whose
source is not under src/).  Per §4.4/§8, the parent component is everything
but the final path segment: `/dir1/dir2/file.txt` maps to namespace
`/dir1/dir2`; a root-level path such as `/file.txt` (or a bare `file.txt`)
maps to the canonical root namespace `/`. -/
def get_parent (path : String) : String :=
  match (path.data.reverse).dropWhile (fun c => c ≠ '/') with
  | [] => "/"
  | ['/'] => "/"
  | _ :: tail => String.mk tail.reverse

/-! ## sled key-value Adapter (src/services/sled/backend.rs) -/

/-- The sled `Adapter`: the data directory and the opened database. -/
structure Adapter where
  datadir : String
  db : SledDb
deriving DecidableEq, Repr

/-- `Adapter::blocking_get`: split the path into parent and basename, open
the parent tree, and return `Ok` of the optional value (absent key gives
`Ok(None)`).  The `map_err` arms of the source fire only on sled I/O
faults, which the store model does not produce. -/
def Adapter.blocking_get (a : Adapter) (path : String) :
    Except ErrorKind (Option (List Nat)) :=
  let tree := a.db.open_tree (get_parent path)
  Except.ok (tree.get (get_basename path))

/-- `Adapter::get` — the async form, defined in the source as
`self.blocking_get(path)`. -/
def Adapter.get (a : Adapter) (path : String) : Except ErrorKind (Option (List Nat)) :=
  a.blocking_get path

/-- Write back a tree under a name, mirroring that sled tree handles alias
mutable state inside the database. -/
def SledDb.put_tree (db : SledDb) (name : String) (tree : SledTree) : SledDb :=
  match db with
  | [] => [(name, tree)]
  | t :: rest =>
    if t.fst == name then (name, tree) :: rest
    else t :: SledDb.put_tree rest name tree

/-- `Adapter::blocking_set`: open the parent tree and insert the value under
the basename; always `Ok(())` (overwrite semantics). -/
def Adapter.blocking_set (a : Adapter) (path : String) (value : List Nat) :
    Except ErrorKind Unit × Adapter :=
  let parent := get_parent path
  let tree := a.db.open_tree parent
  (Except.ok (),
   { a with db := a.db.put_tree parent (tree.insert (get_basename path) value) })

/-- `Adapter::set` — the async form, defined in the source as
`self.blocking_set(path, value)`. -/
def Adapter.set (a : Adapter) (path : String) (value : List Nat) :
    Except ErrorKind Unit × Adapter :=
  a.blocking_set path value

/-- `Adapter::blocking_delete`: open the parent tree and remove the
basename; always `Ok(())` — `tree.remove` returns the old value, which the
source discards, so deleting an absent key is not an error. -/
def Adapter.blocking_delete (a : Adapter) (path : String) :
    Except ErrorKind Unit × Adapter :=
  let parent := get_parent path
  let tree := a.db.open_tree parent
  (Except.ok (),
   { a with db := a.db.put_tree parent (tree.remove (get_basename path)) })

/-- `Adapter::delete` — the async form, defined in the source as
`self.blocking_delete(path)`. -/
def Adapter.delete (a : Adapter) (path : String) : Except ErrorKind Unit × Adapter :=
  a.blocking_delete path

/-! ## Metrics layer (src/layers/metrics.rs)

Counters are thread-safe atomic update targets; we model the counter state
the claims concern (`requests_total` and `bytes_total` for Read and Write,
plus `errors_total`) as a record of naturals, and every metric update as an
event.  Histogram recordings carry wall-clock durations, which have no
shallow embedding; `durRecord` events are kept in the trace but change no
counter. -/

/-- The `Operation` enum of the source: a label naming every primitive call. -/
inductive Operation
  | Metadata
  | Create
  | Read
  | Write
  | Stat
  | Delete
  | List
  | Presign
  | CreateMultipart
  | WriteMultipart
  | CompleteMultipart
  | AbortMultipart
  | BlockingCreate
  | BlockingRead
  | BlockingWrite
  | BlockingStat
  | BlockingDelete
  | BlockingList
deriving DecidableEq, Repr

/-- One metric update performed by the metrics layer. -/
inductive MetricEvent
  | reqInc (op : Operation)
  | byteFlush (op : Operation) (n : Nat)
  | durRecord (op : Operation)
  | errInc (op : Operation) (kind : ErrorKind)
deriving DecidableEq, Repr

/-- The counter state relevant to the read/write claims. -/
structure Metrics where
  requests_total_read : Nat
  bytes_total_read : Nat
  requests_total_write : Nat
  bytes_total_write : Nat
  errors_total : Nat
deriving DecidableEq, Repr

/-- Apply one metric event to the counter state (`Counter::increment` /
`Histogram::record` in the source). -/
def Metrics.apply (m : Metrics) : MetricEvent → Metrics
  | .reqInc .Read => { m with requests_total_read := m.requests_total_read + 1 }
  | .reqInc .Write => { m with requests_total_write := m.requests_total_write + 1 }
  | .reqInc _ => m
  | .byteFlush .Read n => { m with bytes_total_read := m.bytes_total_read + n }
  | .byteFlush .Write n => { m with bytes_total_write := m.bytes_total_write + n }
  | .byteFlush _ _ => m
  | .durRecord _ => m
  | .errInc _ _ => { m with errors_total := m.errors_total + 1 }

/-- Replay a trace of metric events over the counter state. -/
def run_events (m : Metrics) (es : List MetricEvent) : Metrics :=
  es.foldl Metrics.apply m

/-- The byte-counting stream decorator `MetricReader`: the operation label
and the bytes accumulated so far (`bytes: u64`, starting at 0). -/
structure MetricReader where
  op : Operation
  bytes : Nat
deriving DecidableEq, Repr

/-- One successful poll delivering `n` bytes: `self.bytes += bytes as u64`
in `poll_read` / `poll_next`. -/
def MetricReader.poll_read (r : MetricReader) (n : Nat) : MetricReader :=
  { r with bytes := r.bytes + n }

/-- Consume a sequence of successful chunks through the wrapped stream. -/
def MetricReader.consume (r : MetricReader) (chunks : List Nat) : MetricReader :=
  chunks.foldl MetricReader.poll_read r

/-- `Drop for MetricReader`: flush the accumulated byte count into the byte
counter, and record the elapsed duration when `start` was set (read paths).
Rust runs this destructor exactly once, on every exit path. -/
def MetricReader.drop_events (r : MetricReader) (hasStart : Bool) : List MetricEvent :=
  MetricEvent.byteFlush r.op r.bytes ::
    (if hasStart then [MetricEvent.durRecord r.op] else [])

/-- The metric-event trace of one `MetricsAccessor::read` call whose wrapped
stream delivers `chunks` and is dropped after the caller consumes the first
`consumed` chunks: the request counter is incremented up front; on success
the returned reader is wrapped in a `MetricReader` (with `start` set) whose
drop flushes the bytes actually transferred; on error the error counter is
incremented instead. -/
def metrics_read_call (innerResult : Except ErrorKind Unit) (chunks : List Nat)
    (consumed : Nat) : List MetricEvent :=
  MetricEvent.reqInc Operation.Read ::
    match innerResult with
    | Except.ok _ =>
      (MetricReader.consume (MetricReader.mk Operation.Read 0) (chunks.take consumed)).drop_events
        true
    | Except.error e => [MetricEvent.errInc Operation.Read e]

/-- The metric-event trace of one `MetricsAccessor::write` call: the request
counter is incremented up front; the input stream is wrapped in a
`MetricReader` (no `start`) before the inner call, the inner accessor pulls
`consumed` chunks through it, and the reader's drop at the end of the inner
call flushes the bytes actually transferred; on success the duration
histogram is recorded, on error the error counter is incremented. -/
def metrics_write_call (innerResult : Except ErrorKind Unit) (chunks : List Nat)
    (consumed : Nat) : List MetricEvent :=
  MetricEvent.reqInc Operation.Write ::
    ((MetricReader.consume (MetricReader.mk Operation.Write 0) (chunks.take consumed)).drop_events
        false ++
      match innerResult with
      | Except.ok _ => [MetricEvent.durRecord Operation.Write]
      | Except.error e => [MetricEvent.errInc Operation.Write e])

/-- Total number of bytes in a chunk sequence. -/
def sum_bytes (chunks : List Nat) : Nat :=
  chunks.foldl (fun acc c => acc + c) 0

/-- Number of byte-count flushes in a trace. -/
def flush_count (es : List MetricEvent) : Nat :=
  es.countP (fun e => match e with | .byteFlush _ _ => true | _ => false)

/-! ## BatchOperator::remove_all (src/operator.rs)

`remove_all` drives `Object::metadata`, `Object::delete` and the
`BottomUpWalker` stream.  The object methods and the walker live outside
src/ (object.rs and raw/), so the backend they hit is abstracted to an
oracle of per-path results, and the walker — modelled from the spec
(§4.3: bottom-up yields a directory's descendants before the directory
itself) — to the sequence of entries it yields; polling it performs the
listing, recorded as a `listCall`.  `remove_all` itself is translated from
src/src/operator.rs and returns its result together with the log of
backend calls it performed. -/

/-- One backend call performed while running `remove_all`. -/
inductive BatchCall
  | statCall (path : String)
  | listCall (path : String)
  | deleteCall (path : String)
deriving DecidableEq, Repr

/-- Oracle for the backend under `remove_all`: the stat and delete result
of every path, and — modelled from the spec (§4.3) — the entries the
bottom-up walk rooted at a path yields, children before parents. -/
structure BatchEnv where
  statResult : String → Except ErrorKind ObjectMetadata
  deleteResult : String → Except ErrorKind Unit
  walkEntries : String → List String

/-- `obs.try_for_each(|v| v.delete())`: delete every yielded entry in turn,
stopping at the first failure; returns the result and the delete calls
performed. -/
def deleteAll (env : BatchEnv) : List String → Except ErrorKind Unit × List BatchCall
  | [] => (Except.ok (), [])
  | e :: rest =>
    match env.deleteResult e with
    | Except.error err => (Except.error err, [BatchCall.deleteCall e])
    | Except.ok _ =>
      let next := deleteAll env rest
      (next.fst, BatchCall.deleteCall e :: next.snd)

/-- `BatchOperator::remove_all`: stat the root path; on a non-directory
mode, delete it directly and return that result; on a directory, walk
bottom-up and delete every yielded entry in turn.  The call log is
returned alongside the result. -/
def remove_all (env : BatchEnv) (path : String) :
    Except ErrorKind Unit × List BatchCall :=
  match env.statResult path with
  | Except.error e => (Except.error e, [BatchCall.statCall path])
  | Except.ok meta =>
    if meta.mode ≠ ObjectMode.DIR then
      (env.deleteResult path, [BatchCall.statCall path, BatchCall.deleteCall path])
    else
      let walked := deleteAll env (env.walkEntries path)
      (walked.fst, BatchCall.statCall path :: BatchCall.listCall path :: walked.snd)

/-- Number of delete calls in a log. -/
def delete_call_count (log : List BatchCall) : Nat :=
  log.countP (fun c => match c with | .deleteCall _ => true | _ => false)

/-- Number of listing calls in a log. -/
def list_call_count (log : List BatchCall) : Nat :=
  log.countP (fun c => match c with | .listCall _ => true | _ => false)

/-! ## WebHDFS backend (src/services/webhdfs/backend.rs)

The byte-range resolution of `webhdfs_open_req` and the status dispatch of
`read` are translated from the source; the HTTP client is an external
collaborator modelled as an environment of response statuses. -/

/-- The optional-offset/optional-size byte range.  Modelled from the spec:
`BytesRange` lives in `crate::raw` (not under src/); §4.1 — range is
optional-offset/optional-size, offset and size are unsigned 64-bit. -/
structure BytesRange where
  offset : Option Nat
  size : Option Nat
deriving DecidableEq, Repr

/-- The u64 modulus. -/
def U64_MOD : Nat := 2 ^ 64

/-- Unsigned 64-bit subtraction as the machine performs it on in-range
operands: wraps modulo `2^64` when the subtrahend exceeds the minuend
(the source's `total_size - size` carries no guard). -/
def u64_wrapping_sub (a b : Nat) : Nat :=
  (a % U64_MOD + U64_MOD - b % U64_MOD) % U64_MOD

/-- Does the tail-read conversion of `webhdfs_open_req` underflow?  The
`(None, Some(size))` arm computes `total_size - size` on u64, which goes
below zero exactly when `size > total_size`. -/
def webhdfs_tail_read_underflows (range : BytesRange) (total_size : Nat) : Bool :=
  match range.offset, range.size with
  | none, some size => total_size < size
  | _, _ => false

/-- The byte-range rewrite in `webhdfs_open_req`: WebHDFS cannot read from
the end, so `(None, Some(size))` is converted to
`(Some(total_size - size), Some(size))` using the stat'd content length;
every other shape passes through unchanged. -/
def webhdfs_resolve_range (range : BytesRange) (total_size : Nat) : BytesRange :=
  match range.offset, range.size with
  | none, some size => BytesRange.mk (some (u64_wrapping_sub total_size size)) (some size)
  | _, _ => range

/-- The `&offset=…&length=…` URL fragment appended by `webhdfs_open_req`
for a resolved range; `none` stands for the source's `unreachable!` arm
(`(None, Some(_))` cannot survive resolution). -/
def webhdfs_range_params (r : BytesRange) : Option String :=
  match r.offset, r.size with
  | some o, some s => some ("&offset=" ++ toString o ++ "&length=" ++ toString s)
  | some o, none => some ("&offset=" ++ toString o)
  | none, none => some ""
  | none, some _ => none

/-- HTTP statuses distinguished by the embedded WebHDFS code paths. -/
inductive HttpStatus
  | ok200
  | created201
  | part206
  | redirect307
  | notFound404
  | otherErr
deriving DecidableEq, Repr

/-- The HTTP responses the environment returns to the backend for one
object: the status of `GETFILESTATUS` on the root and on the path (with
the parsed content length and whether the root is a directory), and the
statuses of the `OPEN` request and of the datanode request reached through
its redirect. -/
structure WebhdfsEnv where
  rootStatStatus : HttpStatus
  rootIsDir : Bool
  statStatus : HttpStatus
  statContentLength : Nat
  openStatus : HttpStatus
  redirectStatus : HttpStatus

/-- Modelled from the spec: `parse_error` (services/webhdfs/error.rs, not
under src/).  Per §6/§7 the backend produces the most specific kind it can
determine: a not-found report becomes `ObjectNotFound`; other faults
collapse to `Unexpected` here, the only kinds these claims distinguish. -/
def parse_error (s : HttpStatus) : ErrorKind :=
  match s with
  | .notFound404 => ErrorKind.ObjectNotFound
  | _ => ErrorKind.Unexpected

/-- `WebhdfsBackend::check_root`: stat the root; an existing directory is
fine, an existing file is `BackendConfigInvalid`, a missing root is created
(creation modelled as succeeding); other statuses go through `parse_error`. -/
def webhdfs_check_root (env : WebhdfsEnv) : Except ErrorKind Unit :=
  match env.rootStatStatus with
  | .ok200 => if env.rootIsDir then Except.ok () else Except.error ErrorKind.BackendConfigInvalid
  | .notFound404 => Except.ok ()
  | s => Except.error (parse_error s)

/-- `Accessor::stat` for WebHDFS: ensure the root (the `root_checker`
once-cell), then `GETFILESTATUS` on the path; an OK response parses into
metadata carrying the content length, anything else goes through
`parse_error`.  The mode of a successful stat is not consulted by the
embedded claims and is fixed to FILE. -/
def webhdfs_stat (env : WebhdfsEnv) : Except ErrorKind ObjectMetadata :=
  match webhdfs_check_root env with
  | Except.error e => Except.error e
  | Except.ok _ =>
    match env.statStatus with
    | .ok200 => Except.ok (ObjectMetadata.mk ObjectMode.FILE env.statContentLength)
    | s => Except.error (parse_error s)

/-- `WebhdfsBackend::webhdfs_open_req`, reduced to the range it puts into
the request: a `(None, Some(size))` range first stats the path (failures
propagate) and is rewritten to the last `size` bytes; every other range is
used as is. -/
def webhdfs_open_req (env : WebhdfsEnv) (range : BytesRange) :
    Except ErrorKind BytesRange :=
  match range.offset, range.size with
  | none, some _ =>
    (match webhdfs_stat env with
     | Except.error e => Except.error e
     | Except.ok meta => Except.ok (webhdfs_resolve_range range meta.content_length))
  | _, _ => Except.ok range

/-- `WebhdfsBackend::webhdfs_get_object`: build the open request (failures
propagate), send it; a non-OK first response is returned to the caller
as is, an OK response is a redirect that is followed to the datanode. -/
def webhdfs_get_object (env : WebhdfsEnv) (range : BytesRange) :
    Except ErrorKind HttpStatus :=
  match webhdfs_open_req env range with
  | Except.error e => Except.error e
  | Except.ok _ =>
    if env.openStatus ≠ HttpStatus.ok200 then Except.ok env.openStatus
    else Except.ok env.redirectStatus

/-- `Accessor::read` for WebHDFS: get the object and dispatch on the final
status — OK and PARTIAL_CONTENT succeed, NOT_FOUND becomes an
`ObjectNotFound` error value, everything else goes through `parse_error`.
The function is total: every expected failure is an ordinary result. -/
def webhdfs_read (env : WebhdfsEnv) (range : BytesRange) : Except ErrorKind Unit :=
  match webhdfs_get_object env range with
  | Except.error e => Except.error e
  | Except.ok s =>
    match s with
    | .ok200 => Except.ok ()
    | .part206 => Except.ok ()
    | .notFound404 => Except.error ErrorKind.ObjectNotFound
    | s' => Except.error (parse_error s')

/-! ## Theorems: sled DirPager and Adapter -/

/-- A `next_page` call reports `None` exactly when the (wrapped) skip
offset has reached the end of the tree. -/
theorem next_page_none_iff (p : DirPager) :
    (p.blocking_next_page).fst = Except.ok none ↔
      p.db_tree.length ≤ (p.current_page * p.page_size) % USIZE_MOD := by
  simp only [DirPager.blocking_next_page]
  split
  · next h =>
    simp only [List.isEmpty_eq_true, List.map_eq_nil_iff, List.drop_eq_nil_iff] at h
    simpa using h
  · next h =>
    simp only [List.isEmpty_eq_true, List.map_eq_nil_iff, List.drop_eq_nil_iff] at h
    simpa using h

/-- The pager state after `k` calls: the page cursor advanced by `k`
(modulo the usize width), tree and page size untouched. -/
theorem run_fields (k : Nat) (p : DirPager) :
    (p.run k).current_page % USIZE_MOD = (p.current_page + k) % USIZE_MOD ∧
      (p.run k).page_size = p.page_size ∧ (p.run k).db_tree = p.db_tree := by
  induction k generalizing p with
  | zero => simp [DirPager.run]
  | succ k ih =>
    have h := ih (p.blocking_next_page).snd
    simp only [DirPager.run, DirPager.blocking_next_page] at h ⊢
    refine ⟨?_, h.2.1, h.2.2⟩
    rw [h.1, Nat.mod_add_mod]
    congr 1
    omega

/-- Claim C1: every `next_page` call on a sled `DirPager` returns `Ok` of
either `None` or a non-empty entry list; `Some([])` is impossible (the
async form is definitionally the blocking one). -/
theorem dir_pager_page_nonempty (p : DirPager) (page : List ObjectEntry)
    (h : (p.blocking_next_page).fst = Except.ok (some page)) : page ≠ [] := by
  simp only [DirPager.blocking_next_page] at h
  split at h
  · simp at h
  · next hne =>
    simp only [List.isEmpty_eq_true, List.map_eq_nil_iff] at hne
    simp only [Except.ok.injEq, Option.some.injEq] at h
    subst h
    simpa using hne

/-- Concrete instance of claim C1: a one-key tree yields the page holding
exactly that entry, which is non-empty. -/
theorem dir_pager_page_nonempty_witness :
    ((DirPager.mk 0 10 [("a", [1])]).blocking_next_page).fst =
        Except.ok (some [ObjectEntry.mk "a" (ObjectMetadata.mk ObjectMode.FILE 1)]) ∧
      [ObjectEntry.mk "a" (ObjectMetadata.mk ObjectMode.FILE 1)] ≠ ([] : List ObjectEntry) :=
  ⟨rfl, dir_pager_page_nonempty (DirPager.mk 0 10 [("a", [1])]) _ rfl⟩

/-- Claim C5 as stated is refuted by usize overflow: on the one-key tree
with `page_size = 2^63`, the second call's skip offset is `2^63` and
`next_page` returns `None`, but the third call's offset `2 * 2^63` wraps
to 0, so `next_page` returns `Some` of the full page again after `None`. -/
theorem dir_pager_none_not_stable :
    (((DirPager.mk 0 (2 ^ 63) [("a", [1])]).run 1).blocking_next_page).fst =
        Except.ok none ∧
      (((DirPager.mk 0 (2 ^ 63) [("a", [1])]).run 2).blocking_next_page).fst =
        Except.ok (some [ObjectEntry.mk "a" (ObjectMetadata.mk ObjectMode.FILE 1)]) := by
  have h1 : (DirPager.mk 0 (2 ^ 63) [("a", [1])]).run 1 =
      DirPager.mk 1 (2 ^ 63) [("a", [1])] := rfl
  have h2 : (DirPager.mk 0 (2 ^ 63) [("a", [1])]).run 2 =
      DirPager.mk 2 (2 ^ 63) [("a", [1])] := rfl
  constructor
  · rw [h1, next_page_none_iff]
    norm_num [USIZE_MOD]
  · rw [h2]
    norm_num [DirPager.blocking_next_page, USIZE_MOD]

/-- Claim C5 (amended): over an unchanged tree, once `next_page` has
returned `None`, the call after any further `k` calls still returns
`None`, provided the usize skip offset of that later call does not
overflow — `(current_page + k) * page_size < 2^64`. -/
theorem dir_pager_none_stable (p : DirPager) (k : Nat)
    (hbound : (p.current_page + k) * p.page_size < USIZE_MOD)
    (h : (p.blocking_next_page).fst = Except.ok none) :
    ((p.run k).blocking_next_page).fst = Except.ok none := by
  rw [next_page_none_iff] at h ⊢
  obtain ⟨hcp, hps, ht⟩ := run_fields k p
  rw [hps, ht]
  have hmul : ((p.run k).current_page * p.page_size) % USIZE_MOD =
      ((p.current_page + k) * p.page_size) % USIZE_MOD := by
    rw [← Nat.mod_mul_mod, hcp, Nat.mod_mul_mod]
  have hle : p.current_page * p.page_size ≤ (p.current_page + k) * p.page_size :=
    Nat.mul_le_mul_right _ (Nat.le_add_right _ _)
  rw [Nat.mod_eq_of_lt (lt_of_le_of_lt hle hbound)] at h
  rw [hmul, Nat.mod_eq_of_lt hbound]
  exact le_trans h hle

/-- Concrete instance of amended claim C5: with offsets far below the usize
width, an exhausted pager stays exhausted three calls later. -/
theorem dir_pager_none_stable_witness :
    (1 + 3) * 2 < USIZE_MOD ∧
      ((DirPager.mk 1 2 [("a", [])]).blocking_next_page).fst = Except.ok none ∧
      (((DirPager.mk 1 2 [("a", [])]).run 3).blocking_next_page).fst = Except.ok none :=
  ⟨by decide, rfl, dir_pager_none_stable (DirPager.mk 1 2 [("a", [])]) 3 (by decide) rfl⟩

/-- Claim C4 (refuted — the code is defective here): on the two-key tree
{a ↦ [], b ↦ [7]} with page size 1, the pages produced until the first
`None` are [a, b] and [b]; their concatenation carries key b twice, because
`next_page` skips `current_page * page_size` items but never truncates the
page to `page_size` items.  Content lengths do match the stored value
sizes. -/
theorem dir_pager_duplicate_keys :
    DirPager.collectPages (DirPager.mk 0 1 [("a", []), ("b", [7])]) 4 =
        [ObjectEntry.mk "a" (ObjectMetadata.mk ObjectMode.FILE 0),
          ObjectEntry.mk "b" (ObjectMetadata.mk ObjectMode.FILE 1),
          ObjectEntry.mk "b" (ObjectMetadata.mk ObjectMode.FILE 1)] ∧
      (DirPager.collectPages (DirPager.mk 0 1 [("a", []), ("b", [7])]) 4).countP
          (fun e => e.path == "b") = 2 := by
  constructor <;> rfl

/-- Claim C6: the async sled adapter operations and the async pager are
definitionally the corresponding blocking forms. -/
theorem sled_async_eq_blocking :
    (∀ (a : Adapter) (path : String), a.get path = a.blocking_get path) ∧
      (∀ (a : Adapter) (path : String) (value : List Nat),
        a.set path value = a.blocking_set path value) ∧
      (∀ (a : Adapter) (path : String), a.delete path = a.blocking_delete path) ∧
      (∀ (p : DirPager), p.next_page = p.blocking_next_page) :=
  ⟨fun _ _ => rfl, fun _ _ _ => rfl, fun _ _ => rfl, fun _ => rfl⟩

/-- Claim C8: on a key absent from its parent tree, `blocking_get` and
`get` return `Ok(None)` and `blocking_delete` and `delete` return `Ok(())`
— absence is never an error. -/
theorem sled_absent_key_not_error (a : Adapter) (path : String)
    (h : (a.db.open_tree (get_parent path)).get (get_basename path) = none) :
    a.blocking_get path = Except.ok none ∧
      a.get path = Except.ok none ∧
      (a.blocking_delete path).fst = Except.ok () ∧
      (a.delete path).fst = Except.ok () := by
  refine ⟨?_, ?_, rfl, rfl⟩ <;>
    simp [Adapter.blocking_get, Adapter.get, h]

/-- Concrete instance of claim C8: the empty database holds no key for
path `/f`, and get/delete on it are `Ok`. -/
theorem sled_absent_key_not_error_witness :
    ((Adapter.mk "/tmp" []).db.open_tree (get_parent "/f")).get (get_basename "/f") = none ∧
      ((Adapter.mk "/tmp" []).blocking_get "/f" = Except.ok none ∧
        (Adapter.mk "/tmp" []).get "/f" = Except.ok none ∧
        ((Adapter.mk "/tmp" []).blocking_delete "/f").fst = Except.ok () ∧
        ((Adapter.mk "/tmp" []).delete "/f").fst = Except.ok ()) :=
  ⟨rfl, sled_absent_key_not_error (Adapter.mk "/tmp" []) "/f" rfl⟩

/-! ## Theorems: metrics layer -/

/-- Folding addition over a list from any base shifts the base out. -/
theorem foldl_add_shift (cs : List Nat) (a : Nat) :
    cs.foldl (fun acc c => acc + c) a = a + cs.foldl (fun acc c => acc + c) 0 := by
  induction cs generalizing a with
  | nil => simp
  | cons c rest ih =>
    simp only [List.foldl_cons]
    rw [ih (a + c), ih (0 + c)]
    omega

/-- Accumulating polls add up: consuming a chunk sequence adds its total
byte count to the reader's accumulator. -/
theorem consume_bytes (cs : List Nat) (r : MetricReader) :
    (r.consume cs).bytes = r.bytes + sum_bytes cs := by
  induction cs generalizing r with
  | nil => simp [MetricReader.consume, sum_bytes]
  | cons c rest ih =>
    simp only [MetricReader.consume, List.foldl_cons, sum_bytes] at *
    rw [ih (r.poll_read c), foldl_add_shift rest (0 + c)]
    simp [MetricReader.poll_read]
    omega

/-- Consuming chunks never changes the reader's operation label. -/
theorem consume_op (cs : List Nat) (r : MetricReader) : (r.consume cs).op = r.op := by
  induction cs generalizing r with
  | nil => rfl
  | cons c rest ih => exact ih (r.poll_read c)

/-- Claim C2: a successful read or write through the metrics layer bumps
its request counter by exactly 1 and its byte counter by exactly the bytes
actually pulled through the wrapped stream before it is dropped (an
arbitrary consumed prefix, so in particular a partially consumed stream),
and the trace carries exactly one drop-time byte flush. -/
theorem metrics_read_write_accounting (m : Metrics) (chunks : List Nat) (consumed : Nat) :
    (run_events m (metrics_read_call (Except.ok ()) chunks consumed)).requests_total_read
        = m.requests_total_read + 1 ∧
      (run_events m (metrics_read_call (Except.ok ()) chunks consumed)).bytes_total_read
        = m.bytes_total_read + sum_bytes (chunks.take consumed) ∧
      flush_count (metrics_read_call (Except.ok ()) chunks consumed) = 1 ∧
      (run_events m (metrics_write_call (Except.ok ()) chunks consumed)).requests_total_write
        = m.requests_total_write + 1 ∧
      (run_events m (metrics_write_call (Except.ok ()) chunks consumed)).bytes_total_write
        = m.bytes_total_write + sum_bytes (chunks.take consumed) ∧
      flush_count (metrics_write_call (Except.ok ()) chunks consumed) = 1 := by
  refine ⟨?_, ?_, ?_, ?_, ?_, ?_⟩ <;>
    simp [metrics_read_call, metrics_write_call, run_events, Metrics.apply,
      MetricReader.drop_events, flush_count, consume_bytes, consume_op]

/-! ## Theorems: BatchOperator::remove_all -/

/-- When every entry deletes cleanly, the loop deletes them all and
succeeds. -/
theorem deleteAll_ok (env : BatchEnv) (entries : List String)
    (h : ∀ e ∈ entries, env.deleteResult e = Except.ok ()) :
    deleteAll env entries = (Except.ok (), entries.map BatchCall.deleteCall) := by
  induction entries with
  | nil => rfl
  | cons e rest ih =>
    have he := h e (List.mem_cons_self e rest)
    have hr := ih (fun x hx => h x (List.mem_cons_of_mem e hx))
    simp [deleteAll, he, hr]

/-- The loop stops at the first failing entry: everything before it is
deleted, the failing entry's delete is issued, nothing after it is
touched, and the failure is returned. -/
theorem deleteAll_first_fail (env : BatchEnv) (pre : List String) (bad : String)
    (post : List String) (err : ErrorKind)
    (hpre : ∀ e ∈ pre, env.deleteResult e = Except.ok ())
    (hbad : env.deleteResult bad = Except.error err) :
    deleteAll env (pre ++ bad :: post) =
      (Except.error err, (pre ++ [bad]).map BatchCall.deleteCall) := by
  induction pre with
  | nil => simp [deleteAll, hbad]
  | cons e rest ih =>
    have he := hpre e (List.mem_cons_self e rest)
    have hr := ih (fun x hx => hpre x (List.mem_cons_of_mem e hx))
    simp [deleteAll, he, hr]

/-- Claim C3: `remove_all` on a path whose stat reports a non-directory
mode performs exactly one delete call and no listing call and returns that
delete's result; on a directory it deletes every entry the bottom-up walk
yields in turn — all of them on success, and up to and including the first
failing one on failure, returning that first failure (the earlier deletes
are not undone: their calls remain in the log). -/
theorem remove_all_spec :
    (∀ (env : BatchEnv) (path : String) (meta : ObjectMetadata),
        env.statResult path = Except.ok meta → meta.mode ≠ ObjectMode.DIR →
        remove_all env path =
            (env.deleteResult path, [BatchCall.statCall path, BatchCall.deleteCall path]) ∧
          delete_call_count (remove_all env path).snd = 1 ∧
          list_call_count (remove_all env path).snd = 0) ∧
      (∀ (env : BatchEnv) (path : String) (meta : ObjectMetadata),
        env.statResult path = Except.ok meta → meta.mode = ObjectMode.DIR →
        (∀ e ∈ env.walkEntries path, env.deleteResult e = Except.ok ()) →
        remove_all env path =
          (Except.ok (), BatchCall.statCall path :: BatchCall.listCall path ::
            (env.walkEntries path).map BatchCall.deleteCall)) ∧
      (∀ (env : BatchEnv) (path : String) (meta : ObjectMetadata)
        (pre : List String) (bad : String) (post : List String) (err : ErrorKind),
        env.statResult path = Except.ok meta → meta.mode = ObjectMode.DIR →
        env.walkEntries path = pre ++ bad :: post →
        (∀ e ∈ pre, env.deleteResult e = Except.ok ()) →
        env.deleteResult bad = Except.error err →
        remove_all env path =
          (Except.error err, BatchCall.statCall path :: BatchCall.listCall path ::
            (pre ++ [bad]).map BatchCall.deleteCall)) := by
  refine ⟨?_, ?_, ?_⟩
  · intro env path meta hstat hmode
    have hlog : remove_all env path =
        (env.deleteResult path, [BatchCall.statCall path, BatchCall.deleteCall path]) := by
      simp [remove_all, hstat, hmode]
    refine ⟨hlog, ?_, ?_⟩ <;> simp [hlog, delete_call_count, list_call_count]
  · intro env path meta hstat hmode hok
    simp [remove_all, hstat, hmode, deleteAll_ok env _ hok]
  · intro env path meta pre bad post err hstat hmode hwalk hpre hbad
    simp [remove_all, hstat, hmode, hwalk, deleteAll_first_fail env pre bad post err hpre hbad]

/-- A concrete backend for the `remove_all` witness: `/d/` stats as a
directory whose bottom-up walk yields `/d/a`, `/d/b`, `/d/c`; every other
path stats as a file; deleting `/d/b` fails. -/
def c3_env : BatchEnv where
  statResult := fun p =>
    if p = "/d/" then Except.ok (ObjectMetadata.mk ObjectMode.DIR 0)
    else Except.ok (ObjectMetadata.mk ObjectMode.FILE 3)
  deleteResult := fun p =>
    if p = "/d/b" then Except.error ErrorKind.Unexpected else Except.ok ()
  walkEntries := fun _ => ["/d/a", "/d/b", "/d/c"]

/-- Concrete instance of claim C3: the leaf `/x` gets one delete and no
listing; the directory `/d/` gets `/d/a` deleted, then the failing `/d/b`,
and `/d/c` is never touched. -/
theorem remove_all_spec_witness :
    (remove_all c3_env "/x" =
        (c3_env.deleteResult "/x", [BatchCall.statCall "/x", BatchCall.deleteCall "/x"]) ∧
      delete_call_count (remove_all c3_env "/x").snd = 1 ∧
      list_call_count (remove_all c3_env "/x").snd = 0) ∧
    remove_all c3_env "/d/" =
      (Except.error ErrorKind.Unexpected,
        BatchCall.statCall "/d/" :: BatchCall.listCall "/d/" ::
          (["/d/a"] ++ ["/d/b"]).map BatchCall.deleteCall) :=
  ⟨remove_all_spec.1 c3_env "/x" (ObjectMetadata.mk ObjectMode.FILE 3) (by decide) (by decide),
   remove_all_spec.2.2 c3_env "/d/" (ObjectMetadata.mk ObjectMode.DIR 0)
     ["/d/a"] "/d/b" ["/d/c"] ErrorKind.Unexpected (by decide) (by decide) (by decide)
     (by decide) (by decide)⟩

/-! ## Theorems: WebHDFS backend -/

/-- On in-range u64 operands with no underflow, the wrapping subtraction is
the exact subtraction. -/
theorem u64_wrapping_sub_of_le (a b : Nat) (ha : a < U64_MOD) (hba : b ≤ a) :
    u64_wrapping_sub a b = a - b := by
  have hM : U64_MOD = 18446744073709551616 := by norm_num [U64_MOD]
  simp only [u64_wrapping_sub, hM] at *
  omega

/-- Claim C7: a size-only byte range is resolved against the stat'd content
length to the last `size` bytes — offset `total − size` — and in particular
a 10-byte tail read of a 100-byte object is issued with
`&offset=90&length=10`, also through `webhdfs_open_req` itself. -/
theorem webhdfs_tail_range_resolution :
    (∀ (total size : Nat), total < U64_MOD → size ≤ total →
        webhdfs_resolve_range (BytesRange.mk none (some size)) total =
          BytesRange.mk (some (total - size)) (some size)) ∧
      webhdfs_resolve_range (BytesRange.mk none (some 10)) 100 =
        BytesRange.mk (some 90) (some 10) ∧
      webhdfs_range_params (webhdfs_resolve_range (BytesRange.mk none (some 10)) 100) =
        some "&offset=90&length=10" ∧
      (∀ env : WebhdfsEnv,
        webhdfs_stat env = Except.ok (ObjectMetadata.mk ObjectMode.FILE 100) →
        webhdfs_open_req env (BytesRange.mk none (some 10)) =
          Except.ok (BytesRange.mk (some 90) (some 10))) := by
  refine ⟨?_, by decide, by decide, ?_⟩
  · intro total size h1 h2
    simp [webhdfs_resolve_range, u64_wrapping_sub_of_le total size h1 h2]
  · intro env h
    simp only [webhdfs_open_req, h]
    decide

/-- A WebHDFS environment whose object exists with content length 100. -/
def c7_env : WebhdfsEnv where
  rootStatStatus := HttpStatus.ok200
  rootIsDir := true
  statStatus := HttpStatus.ok200
  statContentLength := 100
  openStatus := HttpStatus.ok200
  redirectStatus := HttpStatus.ok200

/-- Concrete instance of claim C7: total 100, size 10 — offset 90. -/
theorem webhdfs_tail_range_resolution_witness :
    100 < U64_MOD ∧ 10 ≤ 100 ∧
      webhdfs_resolve_range (BytesRange.mk none (some 10)) 100 =
        BytesRange.mk (some 90) (some 10) ∧
      webhdfs_open_req c7_env (BytesRange.mk none (some 10)) =
        Except.ok (BytesRange.mk (some 90) (some 10)) :=
  ⟨by decide, by decide,
   webhdfs_tail_range_resolution.1 100 10 (by decide) (by decide),
   webhdfs_tail_range_resolution.2.2.2 c7_env (by decide)⟩

/-- Claim C10: the tail-read offset computation `total_size - size` is an
unguarded u64 subtraction — exact (no underflow) whenever the requested
size is at most the content length, and underflowing (wrapping to
`2^64 - 1` from `0 - 1`) as soon as the size exceeds it. -/
theorem webhdfs_tail_sub_underflow :
    (∀ (total size : Nat), size ≤ total →
        webhdfs_tail_read_underflows (BytesRange.mk none (some size)) total = false) ∧
      (∀ (total size : Nat), total < U64_MOD → size ≤ total →
        u64_wrapping_sub total size = total - size) ∧
      webhdfs_tail_read_underflows (BytesRange.mk none (some 1)) 0 = true ∧
      u64_wrapping_sub 0 1 = U64_MOD - 1 := by
  refine ⟨?_, u64_wrapping_sub_of_le, by decide, by decide⟩
  intro total size h
  simp [webhdfs_tail_read_underflows]
  omega

/-- Concrete instance of claim C10: 3 ≤ 5 does not underflow and subtracts
exactly. -/
theorem webhdfs_tail_sub_underflow_witness :
    3 ≤ 5 ∧ 5 < U64_MOD ∧
      webhdfs_tail_read_underflows (BytesRange.mk none (some 3)) 5 = false ∧
      u64_wrapping_sub 5 3 = 2 :=
  ⟨by decide, by decide,
   webhdfs_tail_sub_underflow.1 5 3 (by decide),
   webhdfs_tail_sub_underflow.2.1 5 3 (by decide) (by decide)⟩

/-- Claim C9: a read of an absent object — the backend answers not-found to
both the stat and the open request — returns the ordinary error value
`ObjectNotFound`, for every byte range (including the tail-read range that
stats first); `webhdfs_read` is a total function, so no expected failure
escapes as anything but a `Result`. -/
theorem webhdfs_read_absent_object (env : WebhdfsEnv) (range : BytesRange)
    (hroot : env.rootStatStatus = HttpStatus.ok200) (hdir : env.rootIsDir = true)
    (hstat : env.statStatus = HttpStatus.notFound404)
    (hopen : env.openStatus = HttpStatus.notFound404) :
    webhdfs_read env range = Except.error ErrorKind.ObjectNotFound := by
  have hcheck : webhdfs_check_root env = Except.ok () := by
    simp [webhdfs_check_root, hroot, hdir]
  have hst : webhdfs_stat env = Except.error ErrorKind.ObjectNotFound := by
    simp [webhdfs_stat, hcheck, hstat, parse_error]
  rcases range with ⟨o, s⟩
  rcases o with _ | o <;> rcases s with _ | s <;>
    simp [webhdfs_read, webhdfs_get_object, webhdfs_open_req, hst, hopen, parse_error]

/-- A WebHDFS environment in which the object is absent: the path stats as
not-found and the open request answers not-found. -/
def c9_env : WebhdfsEnv where
  rootStatStatus := HttpStatus.ok200
  rootIsDir := true
  statStatus := HttpStatus.notFound404
  statContentLength := 0
  openStatus := HttpStatus.notFound404
  redirectStatus := HttpStatus.ok200

/-- Concrete instance of claim C9: a whole-object read of an absent object
returns `ObjectNotFound`. -/
theorem webhdfs_read_absent_object_witness :
    c9_env.rootStatStatus = HttpStatus.ok200 ∧ c9_env.rootIsDir = true ∧
      c9_env.statStatus = HttpStatus.notFound404 ∧
      c9_env.openStatus = HttpStatus.notFound404 ∧
      webhdfs_read c9_env (BytesRange.mk none none) =
        Except.error ErrorKind.ObjectNotFound :=
  ⟨rfl, rfl, rfl, rfl,
   webhdfs_read_absent_object c9_env (BytesRange.mk none none) rfl rfl rfl rfl⟩

end Opendal
